import Mathlib

/-
Verification of the metadata-consistent file store (Express + SQLite + disk
blobs).  JavaScript strings are modelled as lists of UTF-16 code units
(`JStr := List Nat`); the SQLite catalog as lists of records; the uploads
directory as an association list from blob path to blob bytes.
-/

namespace FX

/-- A JavaScript string, as its list of UTF-16 code units. -/
def JStr : Type := List Nat

instance : DecidableEq JStr := by
  unfold JStr
  infer_instance

instance : Membership Nat JStr := by
  unfold JStr
  infer_instance

instance : Append JStr := by
  unfold JStr
  infer_instance

/-- Decoder state of the incremental WHATWG UTF-8 decoder that underlies
Node's `buffer.toString` with the utf8 label: number of continuation bytes
still needed, the code-point accumulator and the valid range for the next
continuation byte. -/
structure U8 where
  need : Nat
  acc : Nat
  lo : Nat
  hi : Nat
  deriving DecidableEq

/-- Initial state of the UTF-8 decoder. -/
def u8init : U8 := ⟨0, 0, 128, 191⟩

/-- Handle one byte in the initial decoder state: ASCII is emitted, lead
bytes open a multi-byte sequence (with the E0/ED/F0/F4 range restrictions),
and anything else is an error replaced by U+FFFD.  The third component
reports whether this byte was an error. -/
def u8start (b : Nat) : List Nat × U8 × Bool :=
  if b ≤ 127 then ([b], u8init, false)
  else if 194 ≤ b ∧ b ≤ 223 then ([], ⟨1, b - 192, 128, 191⟩, false)
  else if 224 ≤ b ∧ b ≤ 239 then
    ([], ⟨2, b - 224, if b = 224 then 160 else 128, if b = 237 then 159 else 191⟩, false)
  else if 240 ≤ b ∧ b ≤ 244 then
    ([], ⟨3, b - 240, if b = 240 then 144 else 128, if b = 244 then 143 else 191⟩, false)
  else ([65533], u8init, true)

/-- Handle one byte in an arbitrary decoder state.  An invalid continuation
byte emits U+FFFD and reprocesses the byte in the initial state, exactly as
the WHATWG algorithm prepends the byte back to the stream. -/
def u8step (s : U8) (b : Nat) : List Nat × U8 × Bool :=
  if s.need = 0 then u8start b
  else if s.lo ≤ b ∧ b ≤ s.hi then
    (if s.need = 1 then ([s.acc * 64 + (b - 128)], u8init, false)
     else ([], ⟨s.need - 1, s.acc * 64 + (b - 128), 128, 191⟩, false))
  else (65533 :: (u8start b).1, (u8start b).2.1, true)

/-- Run the UTF-8 decoder over a byte list.  Returns the decoded code points
(with U+FFFD substituted at every error, as Node does) together with a flag
that is true exactly when the input was well-formed UTF-8. -/
def u8run : U8 → List Nat → List Nat × Bool
  | s, [] => if s.need = 0 then ([], true) else ([65533], false)
  | s, b :: rest =>
    ((u8step s b).1 ++ (u8run (u8step s b).2.1 rest).1,
      (!(u8step s b).2.2) && (u8run (u8step s b).2.1 rest).2)

/-- Decoded text of a byte list, with U+FFFD replacement on malformed input:
the semantics of Node's `toString` with the utf8 label, which never throws. -/
def utf8DecodeReplace (bs : List Nat) : List Nat := (u8run u8init bs).1

/-- True exactly when the byte list is well-formed UTF-8. -/
def utf8DecodeOk (bs : List Nat) : Bool := (u8run u8init bs).2

/-- UTF-8 encoding of one code point. -/
def utf8EncodeChar (c : Nat) : List Nat :=
  if c < 128 then [c]
  else if c < 2048 then [192 + c / 64, 128 + c % 64]
  else if c < 65536 then [224 + c / 4096, 128 + c / 64 % 64, 128 + c % 64]
  else [240 + c / 262144, 128 + c / 4096 % 64, 128 + c / 64 % 64, 128 + c % 64]

/-- UTF-8 encoding of a code-point list. -/
def utf8Encode (s : List Nat) : List Nat := (s.map utf8EncodeChar).flatten

/-- The byte list produced by `Buffer.from(s, "latin1")`: each UTF-16 code
unit truncated to its low 8 bits. -/
def latin1Bytes (s : JStr) : List Nat := s.map (fun u => u % 256)

/-- The upload filename decoder of POST /api/upload (part_001 lines 264-271):
`Buffer.from(fileName, "latin1").toString("utf8")`.  Neither step can throw
in Node, so the surrounding try/catch never fires and the function is total. -/
def nameDecode (s : JStr) : JStr := utf8DecodeReplace (latin1Bytes s)

/-- ASCII-only lowercasing.  This is both the folding of SQLite's NOCASE
collation and (restricted to the comparisons against ".md"/".pdf" made by
the server, where non-ASCII lowercasings are irrelevant) the effect of
JavaScript's toLowerCase. -/
def asciiLower (s : JStr) : JStr :=
  s.map (fun u => if 65 ≤ u ∧ u ≤ 90 then u + 32 else u)

/-- Node's path.extname: the suffix of the basename from its last dot,
empty when there is no dot or the only dot starts the basename. -/
def extname (s : JStr) : JStr :=
  let b := (List.takeWhile (fun u => !decide (u = 47)) s.reverse).reverse
  let t := List.takeWhile (fun u => !decide (u = 46)) b.reverse
  if t.length + 1 < b.length then 46 :: t.reverse else []

/-- Code units of ".md". -/
def dotMd : JStr := [46, 109, 100]

/-- Code units of ".pdf". -/
def dotPdf : JStr := [46, 112, 100, 102]

/-- JavaScript whitespace code units, the set trimmed by String.trim. -/
def jsWs (u : Nat) : Bool :=
  decide (u = 9 ∨ u = 10 ∨ u = 11 ∨ u = 12 ∨ u = 13 ∨ u = 32 ∨ u = 160 ∨
    u = 5760 ∨ (8192 ≤ u ∧ u ≤ 8202) ∨ u = 8232 ∨ u = 8233 ∨ u = 8239 ∨
    u = 8287 ∨ u = 12288 ∨ u = 65279)

/-- JavaScript String.trim. -/
def jsTrim (s : JStr) : JStr :=
  ((List.dropWhile jsWs ((List.dropWhile jsWs s).reverse)).reverse : List Nat)

/-- Collation of the originalName column of the files table.  The server's
own initializeDatabase (part_001 lines 172-194) declares the column without
a collation, so comparisons use the default binary collation; the reset
script (part_001 lines 44-65) declares it COLLATE NOCASE.  Whichever script
created files.db fixes the collation, since both use CREATE TABLE IF NOT
EXISTS. -/
inductive Coll
  | binary
  | nocase
  deriving DecidableEq

/-- Equality of two text values under a collation, as used by SQLite for
`WHERE originalName = ?`: byte equality under binary, ASCII-case-insensitive
equality under NOCASE. -/
def collEq : Coll → JStr → JStr → Bool
  | Coll.binary, a, b => decide (a = b)
  | Coll.nocase, a, b => decide (asciiLower a = asciiLower b)

/-- A row of the files table. -/
structure FileRecord where
  id : JStr
  name : JStr
  originalName : JStr
  displayName : JStr
  size : Nat
  type : JStr
  uploadDate : JStr
  filePath : JStr
  folderId : Option JStr
  deriving DecidableEq

/-- A row of the folders table. -/
structure Folder where
  id : JStr
  name : JStr
  createdDate : JStr
  deriving DecidableEq

/-- Whole-system state: the two catalog tables and the uploads directory,
the latter as an association list from blob path to blob bytes. -/
structure Sys where
  files : List FileRecord
  folders : List Folder
  disk : List (JStr × List Nat)
  deriving DecidableEq

/-- Errors surfaced by the upload route. -/
inductive UpErr
  | noFile
  | unsupportedType
  | payloadTooLarge
  deriving DecidableEq

/-- Errors surfaced by GET /api/files/:id. -/
inductive GetErr
  | notFound
  | readFailed
  deriving DecidableEq

/-- Errors surfaced by the rename and move routes. -/
inductive LcErr
  | invalidArgument
  deriving DecidableEq

/-- The collision lookup of POST /api/upload (part_001 lines 273-276):
`SELECT id FROM files WHERE originalName = ?`, whose comparison uses the
collation of the originalName column. -/
def findByOriginalName (c : Coll) (files : List FileRecord) (n : JStr) :
    Option FileRecord :=
  files.find? (fun r => collEq c r.originalName n)

/-- `SELECT * FROM files WHERE id = ?`. -/
def findById (sys : Sys) (id : JStr) : Option FileRecord :=
  sys.files.find? (fun r => decide (r.id = id))

/-- Read a blob from the uploads directory; none when the path is absent. -/
def diskRead (disk : List (JStr × List Nat)) (p : JStr) : Option (List Nat) :=
  (disk.find? (fun e => decide (e.1 = p))).map (fun e => e.2)

/-- fs.existsSync on the uploads directory, as a Bool. -/
def diskHas (disk : List (JStr × List Nat)) (p : JStr) : Bool :=
  disk.any (fun e => decide (e.1 = p))

/-- `SELECT * FROM files WHERE folderId = ?`. -/
def listByFolder (sys : Sys) (fid : JStr) : List FileRecord :=
  sys.files.filter (fun r => decide (r.folderId = some fid))

/-- Lexicographic comparison of two strings, for ORDER BY. -/
def strLeB : JStr → JStr → Bool
  | [], _ => true
  | _ :: _, [] => false
  | a :: as, b :: bs => if a < b then true else if b < a then false else strLeB as bs

/-- Insert a record into a list sorted by uploadDate descending. -/
def insertDesc (r : FileRecord) : List FileRecord → List FileRecord
  | [] => [r]
  | x :: xs => if strLeB x.uploadDate r.uploadDate then r :: x :: xs
               else x :: insertDesc r xs

/-- GET /api/files (part_001 lines 199-209):
`SELECT * FROM files ORDER BY uploadDate DESC`. -/
def listFiles (sys : Sys) : List FileRecord := sys.files.foldr insertDesc []

/-- POST /api/upload (part_001 lines 133-159 and 246-335).  Multer's
fileFilter rejects extensions other than .md/.pdf before anything is
written; the 10 MiB limit rejects oversized bodies; then the blob is
written under the multer-generated stored path, the filename is decoded,
and a collision found by `SELECT id FROM files WHERE originalName = ?`
causes the old blob to be unlinked (when present) and the old row deleted
before the fresh row is inserted.  The non-deterministic inputs of the
handler (generated id, stored name and path, current time) are explicit
parameters. -/
def uploadFile (c : Coll) (sys : Sys) (origName : JStr) (bytes : List Nat)
    (fileId storedName storedPath now : JStr) (folderId : Option JStr) :
    Sys × Except UpErr FileRecord :=
  if ¬(asciiLower (extname origName) = dotMd ∨ asciiLower (extname origName) = dotPdf) then
    (sys, Except.error UpErr.unsupportedType)
  else if bytes.length > 10485760 then
    (sys, Except.error UpErr.payloadTooLarge)
  else
    let fileName := nameDecode origName
    let fileType := (asciiLower (extname origName)).drop 1
    let disk1 := (storedPath, bytes) :: sys.disk.filter (fun e => !decide (e.1 = storedPath))
    let newRec : FileRecord :=
      ⟨fileId, storedName, fileName, fileName, bytes.length, fileType, now, storedPath, folderId⟩
    match findByOriginalName c sys.files fileName with
    | some old =>
        ({ files := sys.files.filter (fun r => !decide (r.id = old.id)) ++ [newRec],
           folders := sys.folders,
           disk := disk1.filter (fun e => !decide (e.1 = old.filePath)) },
         Except.ok newRec)
    | none =>
        ({ files := sys.files ++ [newRec], folders := sys.folders, disk := disk1 },
         Except.ok newRec)

/-- GET /api/files/:id (part_001 lines 212-243): 404 when no row has the
id; otherwise the blob is read with `fs.readFile(filePath, "utf-8")` — for
every type — and returned as the content field next to the row. -/
def getFile (sys : Sys) (id : JStr) : Except GetErr (FileRecord × List Nat) :=
  match findById sys id with
  | none => Except.error GetErr.notFound
  | some r =>
    match diskRead sys.disk r.filePath with
    | none => Except.error GetErr.readFailed
    | some bs => Except.ok (r, utf8DecodeReplace bs)

/-- PUT /api/files/:id/rename (part_001 lines 520-544): 400 when the name
is missing or empty after trimming, otherwise
`UPDATE files SET displayName = ? WHERE id = ?` with the trimmed name.  An
id matching no row updates zero rows and still reports success. -/
def renameFile (sys : Sys) (id newName : JStr) : Sys × Option LcErr :=
  if jsTrim newName = [] then (sys, some LcErr.invalidArgument)
  else
    let files2 := sys.files.map
      (fun r => if r.id = id then { r with displayName := jsTrim newName } else r)
    ({ sys with files := files2 }, none)

/-- PUT /api/files/:id/move (part_001 lines 571-587):
`UPDATE files SET folderId = ? WHERE id = ?`, with no existence check on
the file or the folder; an id matching no row still reports success. -/
def moveFile (sys : Sys) (id : JStr) (folderId : Option JStr) : Sys × Option LcErr :=
  let files2 := sys.files.map
    (fun r => if r.id = id then { r with folderId := folderId } else r)
  ({ sys with files := files2 }, none)

/-- DELETE /api/folders/:id (part_001 lines 479-517): unlink every existing
blob of the folder's files, then `DELETE FROM files WHERE folderId = ?`,
and only if that succeeds `DELETE FROM folders WHERE id = ?`.  The Boolean
argument is the success oracle of the files-delete statement (a SQLite
statement is atomic: on failure it changes no rows); the returned Boolean
reports overall success. -/
def deleteFolder (sys : Sys) (fid : JStr) (filesDeleteOk : Bool) : Sys × Bool :=
  let victims := sys.files.filter (fun r => decide (r.folderId = some fid))
  let disk1 := sys.disk.filter (fun e => !victims.any (fun r => decide (r.filePath = e.1)))
  if filesDeleteOk then
    ({ files := sys.files.filter (fun r => !decide (r.folderId = some fid)),
       folders := sys.folders.filter (fun f => !decide (f.id = fid)),
       disk := disk1 }, true)
  else
    ({ sys with disk := disk1 }, false)

/-- The blob-unlink loop of DELETE /api/clear (part_001 lines 418-422):
`rows.forEach(row => { if (fs.existsSync(row.filePath)) fs.unlinkSync(row.filePath) })`.
A row whose blob is absent is skipped by the existsSync guard and blocks
nothing.  An unlinkSync call on a present blob may throw (permissions, I/O);
the oracle `locked` lists the paths on which an attempted unlink throws.
A throw propagates out of the forEach, aborting the handler at once: the
remaining rows are not visited and the Boolean result is false. -/
def unlinkRows (locked : List JStr) :
    List FileRecord → List (JStr × List Nat) → List (JStr × List Nat) × Bool
  | [], disk => (disk, true)
  | r :: rest, disk =>
    if diskHas disk r.filePath = true then
      if r.filePath ∈ locked then (disk, false)
      else unlinkRows locked rest (disk.filter (fun e => !decide (r.filePath = e.1)))
    else unlinkRows locked rest disk

/-- DELETE /api/clear (part_001 lines 410-434): run the unlink loop over
all rows; only if it completes without a throw does control reach
`DELETE FROM files`, which clears the table in one statement.  When an
unlink throws, the rows survive and only the blobs removed before the
throw are gone. -/
def clearAll (sys : Sys) (locked : List JStr) : Sys × Bool :=
  match unlinkRows locked sys.files sys.disk with
  | (disk2, true) => ({ files := [], folders := sys.folders, disk := disk2 }, true)
  | (disk2, false) => ({ sys with disk := disk2 }, false)

/-! Concrete sample data used by counterexamples and witnesses. -/

/-- Code units of "f1". -/
def idF1 : JStr := [102, 49]

/-- Code units of "f2". -/
def idF2 : JStr := [102, 50]

/-- Code units of "A.md". -/
def nAmd : JStr := [65, 46, 109, 100]

/-- Code units of "a.md". -/
def namd : JStr := [97, 46, 109, 100]

/-- Code units of "p1", a blob path. -/
def pathP1 : JStr := [112, 49]

/-- Code units of "p2", a blob path. -/
def pathP2 : JStr := [112, 50]

/-- Code units of "s1", a stored name. -/
def storedS1 : JStr := [115, 49]

/-- Code units of "s2", a stored name. -/
def storedS2 : JStr := [115, 50]

/-- Code units of "t1", an upload date. -/
def dateT1 : JStr := [116, 49]

/-- Code units of "t2", an upload date. -/
def dateT2 : JStr := [116, 50]

/-- Code units of "md". -/
def tyMd : JStr := [109, 100]

/-- Code units of "pdf". -/
def tyPdf : JStr := [112, 100, 102]

/-- A stored markdown record named "A.md". -/
def recA : FileRecord := ⟨idF1, storedS1, nAmd, nAmd, 2, tyMd, dateT1, pathP1, none⟩

/-- A system holding the single record recA and its blob. -/
def sysA : Sys := ⟨[recA], [], [(pathP1, [104, 105])]⟩

/-- Code units of "a.pdf". -/
def nApdf : JStr := [97, 46, 112, 100, 102]

/-- Bytes of a blob that is not valid UTF-8: "%PDF" followed by byte 128. -/
def pdfBytes : List Nat := [37, 80, 68, 70, 128]

/-- A stored pdf record. -/
def recP : FileRecord := ⟨idF1, storedS1, nApdf, nApdf, 5, tyPdf, dateT1, pathP1, none⟩

/-- A system holding the single pdf record recP and its (non-UTF-8) blob. -/
def sysP : Sys := ⟨[recP], [], [(pathP1, pdfBytes)]⟩

/-- Code points of the Arabic filename of the spec's decoding example:
"تقرير.md". -/
def arabicName : JStr := [1578, 1602, 1585, 1610, 1585, 46, 109, 100]

/-- Code units of "archive.zip". -/
def zipName : JStr := [97, 114, 99, 104, 105, 118, 101, 46, 122, 105, 112]

/-- Code units of "é.md", a filename that is already correct text and whose
latin1 byte reinterpretation is malformed UTF-8. -/
def accentName : JStr := [233, 46, 109, 100]

/-- Code units of "B.md". -/
def nBmd : JStr := [66, 46, 109, 100]

/-- A second stored markdown record, named "B.md", with blob path "p2". -/
def recB : FileRecord := ⟨idF2, storedS2, nBmd, nBmd, 2, tyMd, dateT2, pathP2, none⟩

/-- A system holding recA and recB with both blobs present on disk. -/
def sysAB : Sys := ⟨[recA, recB], [], [(pathP1, [104]), (pathP2, [105])]⟩

example : nameDecode (utf8Encode arabicName) = arabicName := by decide

example : latin1Bytes (utf8Encode arabicName) = utf8Encode arabicName := by decide

example : utf8DecodeOk (latin1Bytes accentName) = false := by decide

example : nameDecode accentName = [65533, 46, 109, 100] := by decide

example : findByOriginalName Coll.binary [recA] namd = none := by decide

example : findByOriginalName Coll.nocase [recA] namd = some recA := by decide

example :
    (uploadFile Coll.binary sysA namd [104] idF2 storedS2 pathP2 dateT2 none).1.files.length
      = 2 := by decide

example : getFile sysP idF1 = Except.ok (recP, [37, 80, 68, 70, 65533]) := rfl

example : uploadFile Coll.binary sysA zipName [104] idF2 storedS2 pathP2 dateT2 none
    = (sysA, Except.error UpErr.unsupportedType) := rfl

example : asciiLower (extname namd) = dotMd := by decide

example : jsTrim [32, 32] = [] := by decide

/-! Helper lemmas. -/

lemma bool_false_of_not_true {b : Bool} (h : ¬(b = true)) : b = false := by
  cases b
  · rfl
  · exact absurd rfl h

lemma bool_true_of_not_false {b : Bool} (h : ¬(b = false)) : b = true := by
  cases b
  · exact absurd rfl h
  · rfl

lemma eq_singleton_of_mem_of_len_le {α : Type} (l : List α) (a : α)
    (ha : a ∈ l) (hl : l.length ≤ 1) : l = [a] := by
  cases l with
  | nil => cases ha
  | cons b t =>
    cases t with
    | nil =>
      have hab : a = b := by simpa using ha
      simp [hab]
    | cons c t2 =>
      simp only [List.length_cons] at hl
      omega

lemma filter_filter_nil {α : Type} (l : List α) (p q : α → Bool)
    (h : ∀ x ∈ l, p x = true → q x = false) : (l.filter p).filter q = [] := by
  induction l with
  | nil => rfl
  | cons a t ih =>
    have ht : ∀ x ∈ t, p x = true → q x = false :=
      fun x hx => h x (List.mem_cons_of_mem a hx)
    by_cases hp : p a = true
    · have hq := h a (List.mem_cons_self a t) hp
      simp [List.filter_cons, hp, hq, ih ht]
    · have hp' : p a = false := bool_false_of_not_true hp
      simp [List.filter_cons, hp', ih ht]

lemma filter_after_filter_not {α : Type} (l : List α) (q : α → Bool) :
    (l.filter (fun a => !q a)).filter q = [] :=
  filter_filter_nil l (fun a => !q a) q (fun x _ hp => by simpa using hp)

lemma any_filter_not {α : Type} (l : List α) (q : α → Bool) :
    (l.filter (fun a => !q a)).any q = false := by
  induction l with
  | nil => rfl
  | cons a t ih =>
    by_cases hq : q a = true
    · simp [List.filter_cons, hq, ih]
    · have hq' : q a = false := bool_false_of_not_true hq
      simp [List.filter_cons, hq', ih]

lemma find?_isSome_of {α : Type} (l : List α) (p : α → Bool) (a : α)
    (ha : a ∈ l) (hp : p a = true) : (l.find? p).isSome = true := by
  induction l with
  | nil => cases ha
  | cons b t ih =>
    by_cases hb : p b = true
    · simp [List.find?_cons_of_pos, hb]
    · rw [List.find?_cons_of_neg _ hb]
      apply ih
      rcases List.mem_cons.mp ha with h1 | h1
      · subst h1
        exact absurd hp hb
      · exact h1

lemma filter_congr_mem {α : Type} (l : List α) (p q : α → Bool)
    (h : ∀ x ∈ l, p x = q x) : l.filter p = l.filter q := by
  induction l with
  | nil => rfl
  | cons a t ih =>
    have ha := h a (List.mem_cons_self a t)
    have ht : ∀ x ∈ t, p x = q x := fun x hx => h x (List.mem_cons_of_mem a hx)
    rw [List.filter_cons, List.filter_cons, ha, ih ht]

/-- When no catalog row's blob path is one on which unlink throws, the
unlink loop of clear-all completes and removes from the uploads directory
exactly the entries referenced by some row — a row whose blob is already
missing is skipped and blocks nothing. -/
lemma filter_cons_any (disk : List (JStr × List Nat)) (r : FileRecord)
    (rest : List FileRecord) :
    (disk.filter (fun e => !decide (r.filePath = e.1))).filter
      (fun e => !rest.any (fun r2 => decide (r2.filePath = e.1)))
    = disk.filter (fun e => !((r :: rest).any (fun r2 => decide (r2.filePath = e.1)))) := by
  induction disk with
  | nil => rfl
  | cons e t ih =>
    by_cases h1 : decide (r.filePath = e.1) = true
    · simp [List.filter_cons, h1, List.any_cons, ih]
    · have h1' := bool_false_of_not_true h1
      by_cases h2 : rest.any (fun r2 => decide (r2.filePath = e.1)) = true
      · simp [List.filter_cons, h1', h2, List.any_cons, ih]
      · have h2' := bool_false_of_not_true h2
        simp [List.filter_cons, h1', h2', List.any_cons, ih]

lemma unlinkRows_no_locked (locked : List JStr) (files : List FileRecord)
    (disk : List (JStr × List Nat))
    (h : ∀ r ∈ files, ¬(r.filePath ∈ locked)) :
    unlinkRows locked files disk
      = (disk.filter (fun e => !files.any (fun r => decide (r.filePath = e.1))), true) := by
  induction files generalizing disk with
  | nil =>
    simp [unlinkRows]
  | cons r rest ih =>
    have hr := h r (List.mem_cons_self r rest)
    have hrest : ∀ x ∈ rest, ¬(x.filePath ∈ locked) :=
      fun x hx => h x (List.mem_cons_of_mem r hx)
    simp only [unlinkRows]
    by_cases hd : diskHas disk r.filePath = true
    · rw [if_pos hd, if_neg hr, ih _ hrest, filter_cons_any disk r rest]
    · rw [if_neg hd, ih _ hrest]
      have hmemf : ∀ e ∈ disk, decide (r.filePath = e.1) = false := by
        intro e hedisk
        by_contra hxx
        have hxx' := bool_true_of_not_false hxx
        have heq : r.filePath = e.1 := of_decide_eq_true hxx'
        have hhas : diskHas disk r.filePath = true := by
          apply List.any_eq_true.mpr
          exact ⟨e, hedisk, by simp [heq]⟩
        exact hd hhas
      have hcong := filter_congr_mem disk
        (fun e => !rest.any (fun r2 => decide (r2.filePath = e.1)))
        (fun e => !((r :: rest).any (fun r2 => decide (r2.filePath = e.1))))
        (by
          intro e hedisk
          simp [List.any_cons, hmemf e hedisk])
      rw [hcong]

lemma map_update_noop (l : List FileRecord) (id : JStr) (f : FileRecord → FileRecord)
    (h : ∀ r ∈ l, ¬(r.id = id)) :
    l.map (fun r => if r.id = id then f r else r) = l := by
  induction l with
  | nil => rfl
  | cons a t ih =>
    have ha := h a (List.mem_cons_self a t)
    have ht : ∀ r ∈ t, ¬(r.id = id) := fun r hr => h r (List.mem_cons_of_mem a hr)
    simp only [List.map_cons, if_neg ha, ih ht]

lemma collEq_refl (c : Coll) (s : JStr) : collEq c s s = true := by
  cases c <;> simp [collEq]

lemma u8start_err (b : Nat) : (u8start b).2.2 = true → 65533 ∈ (u8start b).1 := by
  unfold u8start
  repeat' split
  all_goals intro h
  all_goals simp_all

lemma u8step_err (s : U8) (b : Nat) : (u8step s b).2.2 = true → 65533 ∈ (u8step s b).1 := by
  unfold u8step
  split
  · exact u8start_err b
  · split
    · split
      · intro h
        simp at h
      · intro h
        simp at h
    · intro h
      simp

lemma u8run_err (s : U8) (bs : List Nat) :
    (u8run s bs).2 = false → 65533 ∈ (u8run s bs).1 := by
  induction bs generalizing s with
  | nil =>
    unfold u8run
    split
    · intro h
      simp at h
    · intro h
      simp
  | cons b rest ih =>
    intro h
    have h2 : (!(u8step s b).2.2 && (u8run (u8step s b).2.1 rest).2) = false := h
    show 65533 ∈ (u8step s b).1 ++ (u8run (u8step s b).2.1 rest).1
    cases he : (u8step s b).2.2
    · rw [he] at h2
      simp only [Bool.not_false, Bool.true_and] at h2
      exact List.mem_append.mpr (Or.inr (ih _ h2))
    · exact List.mem_append.mpr (Or.inl (u8step_err s b he))

lemma replace_mem_fffd (bs : List Nat) (h : utf8DecodeOk bs = false) :
    65533 ∈ utf8DecodeReplace bs :=
  u8run_err u8init bs h

/-- Elementwise frame condition between a renamed files list and the
original: every column except displayName is untouched, and displayName is
the trimmed new name exactly on the row whose id matched. -/
def renamePairOk (id nn : JStr) (pr : FileRecord × FileRecord) : Bool :=
  decide (pr.1.id = pr.2.id) && decide (pr.1.name = pr.2.name) &&
  decide (pr.1.originalName = pr.2.originalName) && decide (pr.1.size = pr.2.size) &&
  decide (pr.1.type = pr.2.type) && decide (pr.1.uploadDate = pr.2.uploadDate) &&
  decide (pr.1.filePath = pr.2.filePath) && decide (pr.1.folderId = pr.2.folderId) &&
  (if pr.2.id = id then decide (pr.1.displayName = nn)
   else decide (pr.1.displayName = pr.2.displayName))

lemma rename_map_fields (l : List FileRecord) (id nn : JStr) :
    ((l.map (fun r => if r.id = id then { r with displayName := nn } else r)).zip l).all
      (renamePairOk id nn) = true := by
  induction l with
  | nil => rfl
  | cons a t ih =>
    by_cases h : a.id = id
    · simp [renamePairOk, h, ih]
    · simp [renamePairOk, h, ih]

/-! Claim theorems. -/

/-- Postcondition of a replace upload under collation c: afterwards exactly
one record matches the decoded name under c; that record carries the freshly
generated id, the upload timestamp and the decoded name as displayName (so
the old displayName customization is gone); the generated id differs from
the replaced record's id; the old record's blob is no longer on disk; and
the route reports the full fresh record. -/
def UploadReplaceProp (c : Coll) (sys : Sys) (origName : JStr) (bytes : List Nat)
    (fileId storedName storedPath now : JStr) (folderId : Option JStr)
    (old : FileRecord) : Prop :=
  let out := uploadFile c sys origName bytes fileId storedName storedPath now folderId
  let fn := nameDecode origName
  let hits := out.1.files.filter (fun r => collEq c r.originalName fn)
  hits.length = 1
  ∧ hits.all (fun r => decide (r.id = fileId) && decide (r.uploadDate = now) &&
      decide (r.displayName = fn)) = true
  ∧ ¬(fileId = old.id)
  ∧ diskHas out.1.disk old.filePath = false
  ∧ out.2 = Except.ok ⟨fileId, storedName, fn, fn, bytes.length,
      (asciiLower (extname origName)).drop 1, now, storedPath, folderId⟩

/-- C1 (counterexample): on a files table created by the server's own
initializeDatabase the originalName column has the default binary
collation, so an upload of "a.md" does not collide with the stored "A.md"
even though the decoded filename equals it case-insensitively: afterwards
two records exist for that case-insensitive name and the old blob is still
in the uploads directory, contradicting the claim as stated. -/
theorem c1_counterexample :
    collEq Coll.nocase (nameDecode namd) recA.originalName = true
    ∧ ¬(nameDecode namd = recA.originalName)
    ∧ ((uploadFile Coll.binary sysA namd [104] idF2 storedS2 pathP2 dateT2 none).1.files.filter
        (fun r => collEq Coll.nocase r.originalName (nameDecode namd))).length = 2
    ∧ diskHas (uploadFile Coll.binary sysA namd [104] idF2 storedS2 pathP2 dateT2 none).1.disk
        recA.filePath = true := by decide

/-- C1 (amended): whenever the collision lookup of POST /api/upload finds a
record under the files table's collation — exact match under the
server-created schema, ASCII-case-insensitive under the reset-script
schema — the upload replaces it: afterwards exactly one record matches that
name, it carries the fresh id and timestamp and the decoded name as
displayName (the old displayName customization is not preserved), and the
old record's blob has been removed from the uploads directory (a blob that
was already missing is tolerated, since removal is modelled on the path
set). -/
theorem c1_replace_on_collision (c : Coll) (sys : Sys) (origName : JStr) (bytes : List Nat)
    (fileId storedName storedPath now : JStr) (folderId : Option JStr) (old : FileRecord)
    (hext : asciiLower (extname origName) = dotMd ∨ asciiLower (extname origName) = dotPdf)
    (hsize : bytes.length ≤ 10485760)
    (hfind : findByOriginalName c sys.files (nameDecode origName) = some old)
    (huniq : (sys.files.filter
      (fun r => collEq c r.originalName (nameDecode origName))).length ≤ 1)
    (hfresh : ∀ r ∈ sys.files, ¬(r.id = fileId)) :
    UploadReplaceProp c sys origName bytes fileId storedName storedPath now folderId old := by
  have h1 : ¬¬(asciiLower (extname origName) = dotMd ∨ asciiLower (extname origName) = dotPdf) :=
    not_not_intro hext
  have h2 : ¬(bytes.length > 10485760) := by omega
  have hf' : sys.files.find? (fun r => collEq c r.originalName (nameDecode origName))
      = some old := hfind
  have hpold : collEq c old.originalName (nameDecode origName) = true := by
    have hb := List.find?_some hf'
    simpa using hb
  have hmemold : old ∈ sys.files := List.mem_of_find?_eq_some hf'
  have hsingle : sys.files.filter (fun r => collEq c r.originalName (nameDecode origName))
      = [old] :=
    eq_singleton_of_mem_of_len_le _ old (List.mem_filter.mpr ⟨hmemold, hpold⟩) huniq
  have hnil : (sys.files.filter (fun r => !decide (r.id = old.id))).filter
      (fun r => collEq c r.originalName (nameDecode origName)) = [] := by
    apply filter_filter_nil
    intro x hx hpx
    by_contra hqx
    have hqx' := bool_true_of_not_false hqx
    have hxf : x ∈ sys.files.filter (fun r => collEq c r.originalName (nameDecode origName)) :=
      List.mem_filter.mpr ⟨hx, hqx'⟩
    rw [hsingle] at hxf
    have hxo : x = old := by simpa using hxf
    subst hxo
    simp at hpx
  unfold UploadReplaceProp
  simp only [uploadFile, if_neg h1, if_neg h2, hfind]
  refine ⟨?_, ?_, ?_, ?_, by trivial⟩
  · simp [List.filter_append, hnil, List.filter_cons, List.filter_nil, collEq_refl]
  · simp [List.filter_append, hnil, List.filter_cons, List.filter_nil, collEq_refl]
  · intro h
    exact hfresh old hmemold h.symm
  · exact any_filter_not _ _

/-- C1 (witness): the amended replace postcondition at a concrete input,
under the NOCASE collation of the reset-script schema, replacing the stored
"A.md" by an upload of "a.md". -/
theorem c1_replace_on_collision_witness :
    UploadReplaceProp Coll.nocase sysA namd [104] idF2 storedS2 pathP2 dateT2 none recA :=
  c1_replace_on_collision Coll.nocase sysA namd [104] idF2 storedS2 pathP2 dateT2 none recA
    (Or.inl (by decide)) (by decide) (by decide) (by decide) (by decide)

/-- C2 (counterexample): under the binary collation of the server-created
files table, the collision lookup misses a stored record whose originalName
differs from the queried name only in letter case. -/
theorem c2_counterexample :
    findByOriginalName Coll.binary [recA] namd = none
    ∧ asciiLower recA.originalName = asciiLower namd
    ∧ ¬(recA.originalName = namd) := by
  refine ⟨rfl, rfl, by decide⟩

/-- C2 (amended): the collision lookup is case-insensitive exactly when the
files table carries the reset script's COLLATE NOCASE column: under that
collation, findByOriginalName returns a record whenever some stored record's
originalName equals the queried name up to ASCII case. -/
theorem c2_nocase_lookup (files : List FileRecord) (n : JStr) (r : FileRecord)
    (hmem : r ∈ files) (hcase : asciiLower r.originalName = asciiLower n) :
    (findByOriginalName Coll.nocase files n).isSome = true := by
  apply find?_isSome_of files _ r hmem
  simp [collEq, hcase]

/-- C2 (witness): the NOCASE lookup finds the stored "A.md" when queried
with "a.md". -/
theorem c2_nocase_lookup_witness :
    (findByOriginalName Coll.nocase [recA] namd).isSome = true :=
  c2_nocase_lookup [recA] namd recA (by decide) (by decide)

/-- C3 (confirmed): deleting a folder unlinks the blobs of the folder's
files and deletes their rows, after which no file lists under the folder,
none of the deleted files' blobs remain in the uploads directory, and the
folder row is gone; and when the catalog step deleting the files fails, the
handler returns before touching the folders table, so the folder row and
the file rows survive (the blobs, unlinked first, are already gone —
the code's deliberate ordering). -/
theorem c3_delete_folder_cascade (sys : Sys) (fid : JStr) :
    listByFolder (deleteFolder sys fid true).1 fid = []
    ∧ ((deleteFolder sys fid true).1.disk.filter
        (fun e => sys.files.any
          (fun r => decide (r.folderId = some fid) && decide (r.filePath = e.1)))) = []
    ∧ (deleteFolder sys fid true).1.folders.filter (fun f => decide (f.id = fid)) = []
    ∧ (deleteFolder sys fid true).2 = true
    ∧ (deleteFolder sys fid false).1.files = sys.files
    ∧ (deleteFolder sys fid false).1.folders = sys.folders
    ∧ (deleteFolder sys fid false).2 = false
    ∧ (deleteFolder sys fid false).1.disk = (deleteFolder sys fid true).1.disk := by
  refine ⟨?_, ?_, ?_, rfl, rfl, rfl, rfl, rfl⟩
  · exact filter_after_filter_not sys.files (fun r => decide (r.folderId = some fid))
  · refine filter_filter_nil sys.disk
      (fun e => !(sys.files.filter (fun r => decide (r.folderId = some fid))).any
        (fun r => decide (r.filePath = e.1)))
      (fun e => sys.files.any
        (fun r => decide (r.folderId = some fid) && decide (r.filePath = e.1)))
      ?_
    intro e he hp
    by_contra hq
    have hq' := bool_true_of_not_false hq
    rcases List.any_eq_true.mp hq' with ⟨r, hr, hrp⟩
    rw [Bool.and_eq_true] at hrp
    obtain ⟨hfold, hpath⟩ := hrp
    have hrv : r ∈ sys.files.filter (fun r => decide (r.folderId = some fid)) :=
      List.mem_filter.mpr ⟨hr, hfold⟩
    have hany : (sys.files.filter (fun r => decide (r.folderId = some fid))).any
        (fun r => decide (r.filePath = e.1)) = true :=
      List.any_eq_true.mpr ⟨r, hrv, hpath⟩
    have hp' : (!(sys.files.filter (fun r => decide (r.folderId = some fid))).any
        (fun r => decide (r.filePath = e.1))) = true := hp
    rw [hany] at hp'
    simp at hp'
  · exact filter_after_filter_not sys.folders (fun f => decide (f.id = fid))

/-- C4 (counterexample): GET /api/files/:id reads the blob with
fs.readFile(filePath, "utf-8") for every type, so for a pdf record whose
blob bytes are not valid UTF-8 the returned content is the replacement
decoding, not the raw bytes the claim promises. -/
theorem c4_counterexample :
    recP.type = tyPdf
    ∧ diskRead sysP.disk recP.filePath = some pdfBytes
    ∧ getFile sysP idF1 = Except.ok (recP, [37, 80, 68, 70, 65533])
    ∧ ¬(([37, 80, 68, 70, 65533] : List Nat) = pdfBytes) := by
  refine ⟨rfl, rfl, rfl, by decide⟩

/-- C4 (amended): for every stored id, getFile returns the record together
with the blob decoded as UTF-8 text — with U+FFFD replacement — for md and
pdf alike; when the blob (a byte list) is not valid UTF-8 the content is
therefore not the raw bytes; and an id with no record fails NotFound. -/
theorem c4_getfile_utf8_text (sys : Sys) (id id2 : JStr) (r : FileRecord) (bs : List Nat)
    (h1 : findById sys id = some r)
    (h2 : diskRead sys.disk r.filePath = some bs)
    (h3 : bs.all (fun b => decide (b < 256)) = true)
    (h4 : findById sys id2 = none) :
    getFile sys id = Except.ok (r, utf8DecodeReplace bs)
    ∧ (utf8DecodeOk bs = true ∨ ¬(utf8DecodeReplace bs = bs))
    ∧ getFile sys id2 = Except.error GetErr.notFound := by
  refine ⟨?_, ?_, ?_⟩
  · simp [getFile, h1, h2]
  · cases hok : utf8DecodeOk bs
    · right
      intro heq
      have hf : 65533 ∈ utf8DecodeReplace bs := replace_mem_fffd bs hok
      rw [heq] at hf
      have hlt := List.all_eq_true.mp h3 _ hf
      simp at hlt
    · left
      rfl
  · simp [getFile, h4]

/-- C4 (witness): the amended getFile contract at the concrete pdf record
whose blob ends in the invalid byte 128. -/
theorem c4_getfile_utf8_text_witness :
    getFile sysP idF1 = Except.ok (recP, utf8DecodeReplace pdfBytes)
    ∧ (utf8DecodeOk pdfBytes = true ∨ ¬(utf8DecodeReplace pdfBytes = pdfBytes))
    ∧ getFile sysP [122] = Except.error GetErr.notFound :=
  c4_getfile_utf8_text sysP idF1 [122] recP pdfBytes (by decide) (by decide) (by decide)
    (by decide)

/-- C5 (confirmed): mis-decoding the UTF-8 bytes of the Arabic filename of
the spec's example as Latin-1 yields a string whose code units are exactly
those bytes, and the upload name decoder recovers the original text
exactly. -/
theorem c5_arabic_roundtrip :
    latin1Bytes (utf8Encode arabicName) = utf8Encode arabicName
    ∧ nameDecode (utf8Encode arabicName) = arabicName := by decide

/-- C6 (counterexample): for the already-correct filename "é.md" the latin1
byte reinterpretation is malformed UTF-8, yet the decoder does not return
the original text: Node's toString never throws, the catch is unreachable,
and the result substitutes U+FFFD for the malformed sequence. -/
theorem c6_counterexample :
    utf8DecodeOk (latin1Bytes accentName) = false
    ∧ ¬(nameDecode accentName = accentName)
    ∧ nameDecode accentName = [65533, 46, 109, 100] := by decide

/-- C6 (amended): the name decoder is a total function — no filename can
make the upload fail at the decoding step — but on a malformed byte
reinterpretation it does not fall back to the original text: it returns the
UTF-8 decoding with at least one U+FFFD replacement character substituted
for the malformed input. -/
theorem c6_malformed_yields_replacement (s : JStr)
    (h : utf8DecodeOk (latin1Bytes s) = false) :
    65533 ∈ nameDecode s :=
  replace_mem_fffd (latin1Bytes s) h

/-- C6 (witness): the replacement character appears in the decoding of
"é.md". -/
theorem c6_malformed_yields_replacement_witness :
    65533 ∈ nameDecode accentName :=
  c6_malformed_yields_replacement accentName (by decide)

/-- C7 (counterexample): the unlink loop of DELETE /api/clear only tolerates
already-missing blobs; an unlinkSync that throws on a present blob (here the
first record's path, on the throw oracle) aborts the forEach, so the second
record's blob is not removed and `DELETE FROM files` never runs: every
catalog row survives and the file listing is not empty, contradicting the
claim that an individual blob-removal failure prevents nothing. -/
theorem c7_counterexample :
    diskHas sysAB.disk recA.filePath = true
    ∧ (clearAll sysAB [pathP1]).2 = false
    ∧ (clearAll sysAB [pathP1]).1.files = sysAB.files
    ∧ ¬(listFiles (clearAll sysAB [pathP1]).1 = [])
    ∧ diskHas (clearAll sysAB [pathP1]).1.disk pathP2 = true := by decide

/-- C7 (amended): clear-all is best-effort only against already-missing
blobs: when no row's blob path is one on which unlink throws, the handler
completes — rows whose blobs are absent are skipped and block neither the
remaining blobs nor the row deletion — and afterwards the file listing is
empty, no blob previously tied to a FileRecord remains in the uploads
directory, and the folders table is untouched.  A genuine unlink failure on
a present blob, however, aborts the handler before `DELETE FROM files`:
the rows and the folders survive unchanged and failure is reported. -/
theorem c7_clear_all_best_effort (sys : Sys) (locked locked2 : List JStr)
    (hok : ∀ r ∈ sys.files, ¬(r.filePath ∈ locked))
    (hbad : (unlinkRows locked2 sys.files sys.disk).2 = false) :
    (clearAll sys locked).2 = true
    ∧ (clearAll sys locked).1.files = []
    ∧ listFiles (clearAll sys locked).1 = []
    ∧ ((clearAll sys locked).1.disk.filter
        (fun e => sys.files.any (fun r => decide (r.filePath = e.1)))) = []
    ∧ (clearAll sys locked).1.folders = sys.folders
    ∧ (clearAll sys locked2).1.files = sys.files
    ∧ (clearAll sys locked2).1.folders = sys.folders
    ∧ (clearAll sys locked2).2 = false := by
  have hu := unlinkRows_no_locked locked sys.files sys.disk hok
  obtain ⟨d2, hbad'⟩ : ∃ d2, unlinkRows locked2 sys.files sys.disk = (d2, false) :=
    ⟨(unlinkRows locked2 sys.files sys.disk).1, by rw [← hbad]⟩
  refine ⟨?_, ?_, ?_, ?_, ?_, ?_, ?_, ?_⟩
  · simp [clearAll, hu]
  · simp [clearAll, hu]
  · simp [clearAll, hu, listFiles]
  · simp only [clearAll, hu]
    exact filter_after_filter_not sys.disk
      (fun e => sys.files.any (fun r => decide (r.filePath = e.1)))
  · simp [clearAll, hu]
  · simp [clearAll, hbad']
  · simp [clearAll, hbad']
  · simp [clearAll, hbad']

/-- C7 (witness): with no throwing path, clearing the one-record system
empties the catalog and the referenced blobs; with the stored blob's path
on the throw oracle, the same system keeps all its rows and reports
failure. -/
theorem c7_clear_all_best_effort_witness :
    (clearAll sysA []).2 = true
    ∧ (clearAll sysA []).1.files = []
    ∧ listFiles (clearAll sysA []).1 = []
    ∧ ((clearAll sysA []).1.disk.filter
        (fun e => sysA.files.any (fun r => decide (r.filePath = e.1)))) = []
    ∧ (clearAll sysA []).1.folders = sysA.folders
    ∧ (clearAll sysA [pathP1]).1.files = sysA.files
    ∧ (clearAll sysA [pathP1]).1.folders = sysA.folders
    ∧ (clearAll sysA [pathP1]).2 = false :=
  c7_clear_all_best_effort sysA [] [pathP1] (by decide) (by decide)

/-- C8 (confirmed): multer's fileFilter rejects any filename whose
lowercased extension is neither ".md" nor ".pdf" before anything is
written: the route reports the unsupported type and the catalog and the
uploads directory are exactly as before. -/
theorem c8_unsupported_type_rejected (c : Coll) (sys : Sys) (origName : JStr)
    (bytes : List Nat) (fileId storedName storedPath now : JStr) (folderId : Option JStr)
    (hmd : ¬(asciiLower (extname origName) = dotMd))
    (hpdf : ¬(asciiLower (extname origName) = dotPdf)) :
    uploadFile c sys origName bytes fileId storedName storedPath now folderId
      = (sys, Except.error UpErr.unsupportedType) := by
  have h : ¬(asciiLower (extname origName) = dotMd ∨ asciiLower (extname origName) = dotPdf) := by
    rintro (h | h)
    · exact hmd h
    · exact hpdf h
  simp only [uploadFile, if_pos h]

/-- C8 (witness): uploading "archive.zip" is rejected with no mutation. -/
theorem c8_unsupported_type_rejected_witness :
    uploadFile Coll.binary sysA zipName [104] idF2 storedS2 pathP2 dateT2 none
      = (sysA, Except.error UpErr.unsupportedType) :=
  c8_unsupported_type_rejected Coll.binary sysA zipName [104] idF2 storedS2 pathP2 dateT2 none
    (by decide) (by decide)

/-- Postcondition of a successful rename: no error, same number of rows,
every column of every row unchanged except that the displayName of the rows
whose id matched is the trimmed new name, and folders and disk untouched. -/
def RenameOkProp (sys : Sys) (id n : JStr) : Prop :=
  (renameFile sys id n).2 = none
  ∧ (renameFile sys id n).1.files.length = sys.files.length
  ∧ ((renameFile sys id n).1.files.zip sys.files).all (renamePairOk id (jsTrim n)) = true
  ∧ (renameFile sys id n).1.folders = sys.folders
  ∧ (renameFile sys id n).1.disk = sys.disk

/-- C9 (confirmed): renaming with a name that is non-empty after trimming
updates only displayName — id, name, originalName (the collision key),
size, type, uploadDate, filePath and folderId of every row are unchanged —
and renaming with a name that is empty after trimming fails with
InvalidArgument and mutates nothing. -/
theorem c9_rename_displayname_only (sys : Sys) (id n m : JStr)
    (hn : ¬(jsTrim n = [])) (hm : jsTrim m = []) :
    RenameOkProp sys id n ∧ renameFile sys id m = (sys, some LcErr.invalidArgument) := by
  constructor
  · unfold RenameOkProp
    refine ⟨?_, ?_, ?_, ?_, ?_⟩
    · simp [renameFile, if_neg hn]
    · simp [renameFile, if_neg hn]
    · simp only [renameFile, if_neg hn]
      exact rename_map_fields sys.files id (jsTrim n)
    · simp [renameFile, if_neg hn]
    · simp [renameFile, if_neg hn]
  · simp only [renameFile, if_pos hm]

/-- C9 (witness): renaming the stored record to "N" keeps every other
column, and renaming to a blank string fails with no mutation. -/
theorem c9_rename_displayname_only_witness :
    RenameOkProp sysA idF1 [78]
    ∧ renameFile sysA idF1 [32] = (sysA, some LcErr.invalidArgument) :=
  c9_rename_displayname_only sysA idF1 [78] [32] (by decide) (by decide)

/-- C10 (confirmed): rename (with a valid name) and move against an id that
matches no row run an UPDATE that affects zero rows: both report success
and leave the state exactly unchanged. -/
theorem c10_unknown_id_noop (sys : Sys) (id n : JStr) (fid : Option JStr)
    (hid : ∀ r ∈ sys.files, ¬(r.id = id)) (hn : ¬(jsTrim n = [])) :
    renameFile sys id n = (sys, none) ∧ moveFile sys id fid = (sys, none) := by
  constructor
  · simp only [renameFile, if_neg hn]
    rw [map_update_noop sys.files id (fun r => { r with displayName := jsTrim n }) hid]
  · simp only [moveFile]
    rw [map_update_noop sys.files id (fun r => { r with folderId := fid }) hid]

/-- C10 (witness): rename and move against the unknown id "x" succeed and
change nothing. -/
theorem c10_unknown_id_noop_witness :
    renameFile sysA [120] [78] = (sysA, none) ∧ moveFile sysA [120] none = (sysA, none) :=
  c10_unknown_id_noop sysA [120] [78] none (by decide) (by decide)

end FX
